import Mathlib

/-!
Verification development for the `Run_Trained_model.py` inference pipeline:
a shallow embedding of the beam text-protocol parser, the batch padder,
the PointNetReg forward pass in evaluation mode, the output canonicalizer,
the result writer and the top-level run, together with theorems about the
specified properties.

Text values are modelled as Lean `String`s; string primitives used by the
Python code (`str.strip`, `str.split`, `str.startswith`, `int`, `float`)
are embedded below on the character lists of those strings.  Numeric
literals parsed from the input are exact decimal values, modelled in `ℚ`;
the model's arithmetic (float32 in the source) is modelled exactly in `ℝ`.
-/

namespace PredictAxis

/-! ### String primitives (Python `str.strip`, `str.split`, `int`, `float`) -/

/-- Python `str.strip()`: remove leading and trailing whitespace. -/
def pyTrim (s : String) : String :=
  String.mk (((s.toList.dropWhile Char.isWhitespace).reverse.dropWhile Char.isWhitespace).reverse)

/-- Helper for `pySplit`: splits on runs of whitespace, accumulator holds the
current token reversed. -/
def splitWsAux : List Char → List Char → List (List Char)
  | [], acc => if acc = [] then [] else [acc.reverse]
  | c :: cs, acc =>
    if c.isWhitespace then
      if acc = [] then splitWsAux cs [] else acc.reverse :: splitWsAux cs []
    else splitWsAux cs (c :: acc)

/-- Python `str.split()` with no argument: split on runs of whitespace,
discarding empty tokens. -/
def pySplit (s : String) : List String :=
  (splitWsAux s.toList []).map String.mk

/-- Python `line.startswith("beam ")`. -/
def startsBeam (line : String) : Bool :=
  ("beam ".toList).isPrefixOf line.toList

def digitVal (c : Char) : ℕ := c.toNat - 48

def digitsVal (ds : List Char) : ℕ := ds.foldl (fun a c => a * 10 + digitVal c) 0

def allDigits (ds : List Char) : Bool := ds.all Char.isDigit

/-- Python `int(token)` on a whitespace-free token: optional sign followed by
a non-empty digit string; `none` models the `ValueError` raised otherwise. -/
def pyInt (s : String) : Option ℤ :=
  match s.toList with
  | [] => none
  | '+' :: ds => if ds ≠ [] ∧ allDigits ds = true then some (digitsVal ds : ℤ) else none
  | '-' :: ds => if ds ≠ [] ∧ allDigits ds = true then some (-(digitsVal ds : ℤ)) else none
  | ds => if allDigits ds = true then some (digitsVal ds : ℤ) else none

/-- Mantissa of a float literal: digits with an optional fractional part.
Returns the mantissa digits' value, the fractional length and the rest. -/
def readMant (l : List Char) : Option (ℕ × ℕ × List Char) :=
  let ip := l.takeWhile Char.isDigit
  let r1 := l.dropWhile Char.isDigit
  match r1 with
  | '.' :: t =>
    let fp := t.takeWhile Char.isDigit
    let r2 := t.dropWhile Char.isDigit
    if ip = [] ∧ fp = [] then none
    else some (digitsVal (ip ++ fp), fp.length, r2)
  | _ => if ip = [] then none else some (digitsVal ip, 0, r1)

/-- Exponent part of a float literal: empty, or `e`/`E`, an optional sign and
a non-empty digit string. -/
def readExp : List Char → Option ℤ
  | [] => some 0
  | e :: t =>
    if e = 'e' ∨ e = 'E' then
      match t with
      | '+' :: t2 => if t2 ≠ [] ∧ allDigits t2 = true then some (digitsVal t2 : ℤ) else none
      | '-' :: t2 => if t2 ≠ [] ∧ allDigits t2 = true then some (-(digitsVal t2 : ℤ)) else none
      | t2 => if t2 ≠ [] ∧ allDigits t2 = true then some (digitsVal t2 : ℤ) else none
    else none

/-- The exact value `sg * mant * 10 ^ (e - fracLen)` of a decimal literal,
computed with core `Int`/`mkRat` operations. -/
def decValue (sg : ℤ) (mant : ℕ) (fracLen : ℕ) (e : ℤ) : ℚ :=
  let k : ℤ := e - fracLen
  if 0 ≤ k then ((sg * mant * (10 : ℤ) ^ k.toNat : ℤ) : ℚ)
  else mkRat (sg * mant) ((10 : ℕ) ^ (-k).toNat)

/-- Python `float(token)` on a whitespace-free token, for finite decimal
literals (optional sign, digits with optional fraction, optional exponent);
the exact value is kept in `ℚ`.  `none` models the `ValueError` raised on a
non-numeric token. -/
def pyFloatChars (l : List Char) : Option ℚ :=
  let sr : ℤ × List Char :=
    match l with
    | '+' :: t => (1, t)
    | '-' :: t => (-1, t)
    | t => (1, t)
  match readMant sr.2 with
  | none => none
  | some mr =>
    match readExp mr.2.2 with
    | none => none
    | some e => some (decValue sr.1 mr.1 mr.2.1 e)

def pyFloat (s : String) : Option ℚ := pyFloatChars s.toList

instance {ε α : Type} [DecidableEq ε] [DecidableEq α] : DecidableEq (Except ε α) := fun a b =>
  match a, b with
  | .ok x, .ok y =>
    if h : x = y then .isTrue (by rw [h]) else .isFalse (by simp [h])
  | .error e, .error f =>
    if h : e = f then .isTrue (by rw [h]) else .isFalse (by simp [h])
  | .ok _, .error _ => .isFalse (by simp)
  | .error _, .ok _ => .isFalse (by simp)

/-! ### Data model and beam parser (`read_beams_text`) -/

abbrev Pt3 := ℚ × ℚ × ℚ

/-- A parsed beam: `{ "id": int, "points": (N,3) array }`. -/
structure Beam where
  id : ℤ
  points : List Pt3
  deriving DecidableEq, Inhabited, Repr

/-- The `ValueError`s `read_beams_text` can raise.  A bad header or a short
point line reports the offending (stripped) line; `int()` and `float()`
failures report the offending token. -/
inductive PErr where
  | badHeader (line : String)
  | badIntToken (tok : String)
  | badPoint (line : String)
  | badFloatToken (tok : String)
  deriving DecidableEq, Repr

/-- Parser state: the `cur_id` / `cur_pts` accumulators plus the `beams`
list built so far (Python appends to `beams` in arrival order). -/
structure PState where
  curId : Option ℤ
  curPts : List Pt3
  beams : List Beam
  deriving DecidableEq, Repr

/-- One iteration of the line loop of `read_beams_text`.  The
`np.asarray(...).ndim` check of the source always passes here because every
accumulated entry is a 3-tuple `[x, y, z]`. -/
def step (st : PState) (raw : String) : Except PErr PState :=
  let line := pyTrim raw
  if line = "" then .ok st
  else if startsBeam line then
    let parts := pySplit line
    if parts.length < 2 then .error (.badHeader line)
    else
      match pyInt (parts.getD 1 "") with
      | none => .error (.badIntToken (parts.getD 1 ""))
      | some i => .ok { st with curId := some i, curPts := [] }
  else if line = "endbeam" then
    match st.curId with
    | none => .ok st
    | some i =>
      if st.curPts = [] then .ok { st with curId := none, curPts := [] }
      else .ok { curId := none, curPts := [],
                 beams := st.beams ++ [{ id := i, points := st.curPts }] }
  else
    let parts := pySplit line
    if parts.length < 3 then .error (.badPoint line)
    else
      match pyFloat (parts.getD 0 "") with
      | none => .error (.badFloatToken (parts.getD 0 ""))
      | some x =>
        match pyFloat (parts.getD 1 "") with
        | none => .error (.badFloatToken (parts.getD 1 ""))
        | some y =>
          match pyFloat (parts.getD 2 "") with
          | none => .error (.badFloatToken (parts.getD 2 ""))
          | some z => .ok { st with curPts := st.curPts ++ [(x, y, z)] }

def initPState : PState := ⟨none, [], []⟩

/-- `read_beams_text`: fold the line loop over the file's lines and return
the accumulated beams (a still-open trailing block is discarded). -/
def readBeamsText (lines : List String) : Except PErr (List Beam) :=
  (lines.foldlM step initPState).map PState.beams

/-! ### Batch padder (`pad_points`) -/

def zeroPt : Pt3 := (0, 0, 0)

/-- Python `max` on a list of sizes (callers only pass non-empty lists). -/
def pyMax (l : List ℕ) : ℕ := l.foldl max 0

/-- Row `i` of the batch array: `x[i] = pts[:target]` when `n >= target`,
otherwise the points followed by the zero-fill left from `np.zeros`. -/
def padRow (pts : List Pt3) (target : ℕ) : List Pt3 :=
  if target ≤ pts.length then pts.take target
  else pts ++ List.replicate (target - pts.length) zeroPt

/-- Row `i` of the mask: all `True` when `n >= target`, otherwise `True` on
the first `n` entries and the `False` fill left from `np.zeros`. -/
def maskRow (n target : ℕ) : List Bool :=
  if target ≤ n then List.replicate target true
  else List.replicate n true ++ List.replicate (target - n) false

/-- `pad_points(beams, target_n)`: batch array, mask and original sizes. -/
def padPoints (beams : List Beam) (targetOpt : Option ℕ) :
    List (List Pt3) × List (List Bool) × List ℕ :=
  let sizes := beams.map fun b => b.points.length
  let t := targetOpt.getD (pyMax sizes)
  (beams.map fun b => padRow b.points t, sizes.map fun n => maskRow n t, sizes)

/-- The numpy shape of the batch array `np.zeros((B, target_n, 3))`. -/
def padShape (beams : List Beam) (targetOpt : Option ℕ) : List ℕ :=
  [beams.length, targetOpt.getD (pyMax (beams.map fun b => b.points.length)), 3]

/-- `x.size(-1)` on a shape list. -/
def sizeLast (shape : List ℕ) : Option ℕ := shape.getLast?

/-- The guard of `PointNetReg.forward`:
`x.dim() != 3 or x.size(-1) != 3` raises a `ValueError`. -/
def forwardShapeRejects (shape : List ℕ) : Bool :=
  (shape.length != 3) || (sizeLast shape != some 3)

/-! ### The model (`PointNetReg`) in evaluation mode, over exact reals

`model.eval()` freezes the batch-norm layers to their running statistics and
turns both dropout layers into no-ops, so the forward pass is a pure
function of the input batch.  Every operation in `forward` (the pointwise
`Conv1d` with kernel size 1 and no bias, evaluation-mode `BatchNorm1d`,
`relu`, the per-row max over the point dimension, the linear head and the
output canonicalization) acts on each batch row independently, so the batch
forward pass is modelled row by row. -/

/-- Evaluation-mode `BatchNorm1d` parameters: learned `gamma`/`beta` and the
frozen running mean/variance. -/
structure BNorm (c : ℕ) where
  gamma : Fin c → ℝ
  beta : Fin c → ℝ
  mean : Fin c → ℝ
  var : Fin c → ℝ

/-- `y = (x - running_mean) / sqrt(running_var + 1e-5) * gamma + beta`
(`BatchNorm1d` in evaluation mode, default `eps = 1e-5`). -/
noncomputable def BNorm.apply {c : ℕ} (bn : BNorm c) (x : Fin c → ℝ) : Fin c → ℝ :=
  fun i => (x i - bn.mean i) / Real.sqrt (bn.var i + 1e-5) * bn.gamma i + bn.beta i

/-- A bias-free linear map (`Conv1d(kernel 1, bias=False)` applied to one
point, or `Linear(bias=False)` applied to one row). -/
noncomputable def linApp {m n : ℕ} (w : Fin m → Fin n → ℝ) (x : Fin n → ℝ) : Fin m → ℝ :=
  fun i => ∑ j, w i j * x j

/-- `F.relu`, componentwise. -/
noncomputable def reluV {n : ℕ} (x : Fin n → ℝ) : Fin n → ℝ := fun i => max 0 (x i)

/-- The learned parameters of `PointNetReg(feat_dims=(c1,c2,c3),
head_dims=(h1,h2))`; `fc_out` is the only layer with a bias. -/
structure PointNetReg (c1 c2 c3 h1 h2 : ℕ) where
  conv1 : Fin c1 → Fin 3 → ℝ
  bn1 : BNorm c1
  conv2 : Fin c2 → Fin c1 → ℝ
  bn2 : BNorm c2
  conv3 : Fin c3 → Fin c2 → ℝ
  bn3 : BNorm c3
  fc1 : Fin h1 → Fin c3 → ℝ
  bn4 : BNorm h1
  fc2 : Fin h2 → Fin h1 → ℝ
  bn5 : BNorm h2
  fcOutW : Fin 6 → Fin h2 → ℝ
  fcOutB : Fin 6 → ℝ

variable {c1 c2 c3 h1 h2 : ℕ}

/-- The shared per-point transform:
`relu(bn3(conv3(relu(bn2(conv2(relu(bn1(conv1 p))))))))`. -/
noncomputable def pointFeature (ck : PointNetReg c1 c2 c3 h1 h2) (p : Fin 3 → ℝ) : Fin c3 → ℝ :=
  reluV (ck.bn3.apply (linApp ck.conv3
    (reluV (ck.bn2.apply (linApp ck.conv2
      (reluV (ck.bn1.apply (linApp ck.conv1 p))))))))

/-- Maximum of a non-empty list of reals (`torch.max` along a dimension;
the rows it is applied to are never empty, `0` is a junk value for `[]`). -/
noncomputable def listMax : List ℝ → ℝ
  | [] => 0
  | a :: as => as.foldl max a

/-- `torch.max(x, 2)[0]` for one batch row: the componentwise maximum of the
per-point features over the row's points. -/
noncomputable def descriptor (ck : PointNetReg c1 c2 c3 h1 h2) (row : List (Fin 3 → ℝ)) :
    Fin c3 → ℝ :=
  fun k => listMax (row.map fun p => pointFeature ck p k)

/-- The regression head on one descriptor: two `Linear`+`BatchNorm1d`+`relu`
stages (both dropout layers are no-ops in evaluation mode) and the final
`fc_out` projection to 6 raw values. -/
noncomputable def headOut (ck : PointNetReg c1 c2 c3 h1 h2) (g : Fin c3 → ℝ) : Fin 6 → ℝ :=
  let z1 := reluV (ck.bn4.apply (linApp ck.fc1 g))
  let z2 := reluV (ck.bn5.apply (linApp ck.fc2 z1))
  fun o => linApp ck.fcOutW z2 o + ck.fcOutB o

/-! ### Output canonicalization (`forward`, lines 104-111) -/

/-- `v_raw = raw[:, 0:3]`. -/
def vrawOf (raw : Fin 6 → ℝ) : Fin 3 → ℝ :=
  fun i => raw ⟨i.1, Nat.lt_of_lt_of_le i.2 (by norm_num)⟩

/-- `c_raw = raw[:, 3:6]`. -/
def crawOf (raw : Fin 6 → ℝ) : Fin 3 → ℝ :=
  fun i => raw ⟨i.1 + 3, Nat.add_lt_add_right i.2 3⟩

/-- The L2 norm of `v_raw` used by `F.normalize(v_raw, dim=1, eps=1e-8)`. -/
noncomputable def vnormOf (raw : Fin 6 → ℝ) : ℝ :=
  Real.sqrt (∑ i, vrawOf raw i ^ 2)

/-- `v = v_raw / max(norm(v_raw), 1e-8)` (`F.normalize` divides by the norm
clamped below at `eps`). -/
noncomputable def vOf (raw : Fin 6 → ℝ) : Fin 3 → ℝ :=
  fun i => vrawOf raw i / max (vnormOf raw) 1e-8

/-- `dot = (c_raw * v).sum(dim=1)`. -/
noncomputable def dotOf (raw : Fin 6 → ℝ) : ℝ := ∑ i, crawOf raw i * vOf raw i

/-- `c = c_raw - dot * v`. -/
noncomputable def cOf (raw : Fin 6 → ℝ) : Fin 3 → ℝ :=
  fun i => crawOf raw i - dotOf raw * vOf raw i

/-- The Output Canonicalizer: 6 raw scalars to the pair `(v, c)`. -/
noncomputable def canonicalize (raw : Fin 6 → ℝ) : (Fin 3 → ℝ) × (Fin 3 → ℝ) :=
  (vOf raw, cOf raw)

/-- The full forward pass of `PointNetReg` on one batch row. -/
noncomputable def forwardRow (ck : PointNetReg c1 c2 c3 h1 h2) (row : List (Fin 3 → ℝ)) :
    (Fin 3 → ℝ) × (Fin 3 → ℝ) :=
  canonicalize (headOut ck (descriptor ck row))

/-! ### Inference runner and result writer -/

/-- A parsed point, cast to the reals the model computes with. -/
noncomputable def toR3 (p : Pt3) : Fin 3 → ℝ :=
  fun i => if i.1 = 0 then (p.1 : ℝ) else if i.1 = 1 then (p.2.1 : ℝ) else (p.2.2 : ℝ)

/-- One output record: id, canonical point, unit axis and the two reserved
scalars (`t1 = t2 = 0.0` in `main`). -/
structure Prediction where
  id : ℤ
  v : Fin 3 → ℝ
  c : Fin 3 → ℝ
  t1 : ℝ
  t2 : ℝ

/-- `beams[start:start+batch_size]` slices: chunk a list into contiguous
slices of size `bs` (the final slice may be shorter).  For `bs = 0` the
Python `range` would raise; the value returned here for `bs = 0` is junk. -/
def chunk {α : Type} (bs : ℕ) (l : List α) : List (List α) :=
  if l.isEmpty ∨ bs = 0 then []
  else l.take bs :: chunk bs (l.drop bs)
termination_by l.length
decreasing_by
  rename_i h
  push_neg at h
  have hl : l ≠ [] := by intro e; subst e; exact h.1 rfl
  simp only [List.length_drop]
  exact Nat.sub_lt (List.length_pos.mpr hl) (Nat.pos_of_ne_zero h.2)

/-- One mini-batch of the inference loop: pad the slice to its own maximal
point count (`pad_points(batch, target_n=None)`), run the model on the
padded batch (row `i` of the batch only feeds row `i` of the output) and
emit one `Prediction` per beam in slice order, with `t1 = t2 = 0`. -/
noncomputable def slicePreds (ck : PointNetReg c1 c2 c3 h1 h2) (slice : List Beam) :
    List Prediction :=
  let target := pyMax (slice.map fun b => b.points.length)
  slice.map fun b =>
    let vc := forwardRow ck ((padRow b.points target).map toR3)
    { id := b.id, v := vc.1, c := vc.2, t1 := 0, t2 := 0 }

/-- The inference loop of `main`: results collected slice by slice, in
order. -/
noncomputable def runInference (ck : PointNetReg c1 c2 c3 h1 h2) (beams : List Beam)
    (bs : ℕ) : List Prediction :=
  ((chunk bs beams).map (slicePreds ck)).flatten

/-- One line of the output text protocol. -/
inductive OutLine where
  | result (id : ℤ)
  | cLine (x y z : ℝ)
  | vLine (x y z : ℝ)
  | tLine (a b : ℝ)
  | endresult

/-- The 6-decimal fixed-point formatting `f"{x:.6f}"`, as the rounded real
value it prints. -/
noncomputable def fmt6 (x : ℝ) : ℝ := (round (x * 1000000) : ℤ) / 1000000

/-- `write_results_text`: one fixed block per prediction, in list order. -/
noncomputable def writeResultsText (rs : List Prediction) : List OutLine :=
  rs.flatMap fun r =>
    [.result r.id,
     .cLine (fmt6 (r.c 0)) (fmt6 (r.c 1)) (fmt6 (r.c 2)),
     .vLine (fmt6 (r.v 0)) (fmt6 (r.v 1)) (fmt6 (r.v 2)),
     .tLine (fmt6 r.t1) (fmt6 r.t2),
     .endresult]

/-- The ids of the `result <id>` header lines, in emission order. -/
def resultIds (ls : List OutLine) : List ℤ :=
  ls.filterMap fun l => match l with | .result i => some i | _ => none

/-! ### Top-level run (`main`) -/

/-- The failures `main` can abort with, in the order the source can raise
them: a parse `ValueError`, the `RuntimeError` for an empty beam list, or a
checkpoint-loading failure. -/
inductive RunErr where
  | parse (e : PErr)
  | noBeams
  | ckptLoad (msg : String)

/-- `main` after argument parsing: parse the input, abort on zero beams
*before* the checkpoint is touched, then load the checkpoint
(`load_checkpoint` builds a default-architecture `PointNetReg()`; its
outcome, success or a `torch.load`/`load_state_dict` failure, is the
`ckpt` argument), run inference and write the output.  An `.error` result
means the process aborts with no output file written. -/
noncomputable def mainRun (lines : List String)
    (ckpt : Except String (PointNetReg 64 128 256 256 128)) (bs : ℕ) :
    Except RunErr (List OutLine) :=
  match readBeamsText lines with
  | .error e => .error (.parse e)
  | .ok beams =>
    if beams.length = 0 then .error .noBeams
    else
      match ckpt with
      | .error m => .error (.ckptLoad m)
      | .ok model => .ok (writeResultsText (runInference model beams bs))

/-! ### Line predicates, block descriptions and concrete parameter sets

Definitions used by the theorems below: decidable predicates classifying
input lines the way the parser's branches do, a description of well-formed
input blocks, and concrete parameter sets (an all-zero one, and the
almost-zero `ckX` used to exhibit the padding effect). -/

/-- `l` is taken by the header branch and its id parses to `i`:
after stripping it starts with `"beam "`, has a second token, and
`int(parts[1]) = i`. -/
def IsHeaderFor (l : String) (i : ℤ) : Prop :=
  startsBeam (pyTrim l) = true ∧ 2 ≤ (pySplit (pyTrim l)).length ∧
  pyInt ((pySplit (pyTrim l)).getD 1 "") = some i

/-- `l` is taken by the coordinate branch and parses to the point `p`:
after stripping it is non-blank, is no header, is not `endbeam`, has at
least 3 tokens, and its first three tokens parse as floats to `p`. -/
def IsCoordFor (l : String) (p : Pt3) : Prop :=
  pyTrim l ≠ "" ∧ startsBeam (pyTrim l) = false ∧ pyTrim l ≠ "endbeam" ∧
  3 ≤ (pySplit (pyTrim l)).length ∧
  pyFloat ((pySplit (pyTrim l)).getD 0 "") = some p.1 ∧
  pyFloat ((pySplit (pyTrim l)).getD 1 "") = some p.2.1 ∧
  pyFloat ((pySplit (pyTrim l)).getD 2 "") = some p.2.2

/-- `l` strips to `endbeam`. -/
def IsEndLine (l : String) : Prop := pyTrim l = "endbeam"

instance (l : String) (i : ℤ) : Decidable (IsHeaderFor l i) := by
  unfold IsHeaderFor; infer_instance

instance (l : String) (p : Pt3) : Decidable (IsCoordFor l p) := by
  unfold IsCoordFor; infer_instance

instance (l : String) : Decidable (IsEndLine l) := by
  unfold IsEndLine; infer_instance

/-- One well-formed input block: a header line, a body of coordinate lines
with their parsed points, and a closing line. -/
structure WFBlock where
  id : ℤ
  header : String
  body : List (String × Pt3)
  endl : String

def blockLines (b : WFBlock) : List String := b.header :: b.body.map Prod.fst ++ [b.endl]

def WFB (b : WFBlock) : Prop :=
  IsHeaderFor b.header b.id ∧ (∀ q ∈ b.body, IsCoordFor q.1 q.2) ∧ IsEndLine b.endl

instance (b : WFBlock) : Decidable (WFB b) := by
  unfold WFB; infer_instance

/-- All-zero batch-norm parameters. -/
noncomputable def bnZero (c : ℕ) : BNorm c :=
  { gamma := fun _ => 0, beta := fun _ => 0, mean := fun _ => 0, var := fun _ => 0 }

/-- An all-zero parameter set with the default architecture. -/
noncomputable def ckZero : PointNetReg 64 128 256 256 128 :=
  { conv1 := fun _ _ => 0, bn1 := bnZero 64
    conv2 := fun _ _ => 0, bn2 := bnZero 128
    conv3 := fun _ _ => 0, bn3 := bnZero 256
    fc1 := fun _ _ => 0, bn4 := bnZero 256
    fc2 := fun _ _ => 0, bn5 := bnZero 128
    fcOutW := fun _ _ => 0, fcOutB := fun _ => 0 }

/-- A one-hot vector: `t` at `i0`, zero elsewhere. -/
noncomputable def deltaVec {c : ℕ} (i0 : Fin c) (t : ℝ) : Fin c → ℝ :=
  fun i => if i = i0 then t else 0

/-- A weight matrix with a single non-zero entry `cf` at `(i0, j0)`. -/
noncomputable def deltaW {m n : ℕ} (i0 : Fin m) (j0 : Fin n) (cf : ℝ) : Fin m → Fin n → ℝ :=
  fun i j => if i = i0 ∧ j = j0 then cf else 0

/-- Batch-norm parameters that are the identity plus shift `b0` on channel
`i0` and zero elsewhere: running mean 0, running variance `1 - 1e-5` (so the
evaluation-mode denominator is exactly 1), `gamma` one-hot, `beta = b0`
one-hot. -/
noncomputable def bnDelta (c : ℕ) (i0 : Fin c) (b0 : ℝ) : BNorm c :=
  { gamma := deltaVec i0 1, beta := deltaVec i0 b0,
    mean := fun _ => 0, var := fun _ => 1 - 1e-5 }

/-- The counterexample parameter set for the default architecture: channel 0
of the point transform computes `relu(1 - x)` of the point's x-coordinate,
the head routes the pooled channel-0 value to raw output 5 (`c_raw`'s third
component), and the output bias puts `1` into raw output 0 (`v_raw`'s first
component). -/
noncomputable def ckX : PointNetReg 64 128 256 256 128 :=
  { conv1 := deltaW 0 0 (-1), bn1 := bnDelta 64 0 1
    conv2 := deltaW 0 0 1, bn2 := bnDelta 128 0 0
    conv3 := deltaW 0 0 1, bn3 := bnDelta 256 0 0
    fc1 := deltaW 0 0 1, bn4 := bnDelta 256 0 0
    fc2 := deltaW 0 0 1, bn5 := bnDelta 128 0 0
    fcOutW := deltaW 5 0 1, fcOutB := deltaVec 0 1 }

/-- The raw head output produced by `ckX` from a pooled channel-0 value `d`:
`v_raw = (1,0,0)` (from the `fc_out` bias) and `c_raw = (0,0,d)`. -/
noncomputable def rawOf (d : ℝ) : Fin 6 → ℝ :=
  fun o => if o.1 = 0 then 1 else if o.1 = 5 then d else 0

/-- The first counterexample beam: one point with x-coordinate 2. -/
def b1X : Beam := ⟨1, [(2, 0, 0)]⟩

/-- The second counterexample beam: two points with x-coordinate 2. -/
def b2X : Beam := ⟨2, [(2, 0, 0), (2, 0, 0)]⟩

/-- One prediction computed from a beam's own unpadded points. -/
noncomputable def predOfBeam (ck : PointNetReg c1 c2 c3 h1 h2) (b : Beam) : Prediction :=
  { id := b.id,
    v := (forwardRow ck (b.points.map toR3)).1,
    c := (forwardRow ck (b.points.map toR3)).2,
    t1 := 0, t2 := 0 }

/-! ## Theorems -/

/-! ### C1: the Output Canonicalizer -/

/-- C1 (counterexample): at the all-zero raw output, `‖v_raw‖ = 0 < ε`, the
canonicalizer returns `v = 0`, whose norm is `0`, not `1`: the claimed
unit-norm guarantee fails for inputs with `‖v_raw‖` below `ε`. -/
theorem c1_zero_input_not_unit :
    (∀ i, (canonicalize (fun _ => 0)).1 i = 0) ∧
    Real.sqrt (∑ i, ((canonicalize (fun _ => 0)).1 i) ^ 2) = 0 ∧
    Real.sqrt (∑ i, ((canonicalize (fun _ => 0)).1 i) ^ 2) ≠ 1 := by
  have hv : ∀ i, (canonicalize (fun _ => 0)).1 i = 0 := by
    intro i
    simp [canonicalize, vOf, vrawOf]
  refine ⟨hv, ?_, ?_⟩
  · simp only [hv]
    simp
  · simp only [hv]
    simp

/-- C1 (amended): the canonicalizer computes `v = v_raw / max(‖v_raw‖, ε)`
with `ε = 1e-8` and `c = c_raw - (c_raw·v)·v`; whenever `‖v_raw‖ ≥ ε`
(in particular for every raw output the clamp does not touch), `‖v‖ = 1`
and `c·v = 0` hold exactly in real arithmetic. -/
theorem c1_canonicalizer (raw : Fin 6 → ℝ) (h : (1e-8 : ℝ) ≤ vnormOf raw) :
    Real.sqrt (∑ i, ((canonicalize raw).1 i) ^ 2) = 1 ∧
    (∑ i, (canonicalize raw).2 i * (canonicalize raw).1 i) = 0 := by
  have hS0 : 0 ≤ ∑ i, vrawOf raw i ^ 2 :=
    Finset.sum_nonneg fun i _ => sq_nonneg _
  have hpos : 0 < vnormOf raw := lt_of_lt_of_le (by norm_num) h
  have hmax : max (vnormOf raw) 1e-8 = vnormOf raw := max_eq_left h
  have hsq : vnormOf raw ^ 2 = ∑ i, vrawOf raw i ^ 2 := Real.sq_sqrt hS0
  have hSpos : 0 < ∑ i, vrawOf raw i ^ 2 := by
    rw [← hsq]; exact pow_pos hpos 2
  have hv2 : (∑ i, (vOf raw i) ^ 2) = 1 := by
    simp only [vOf, hmax, div_pow]
    rw [← Finset.sum_div, hsq]
    exact div_self (ne_of_gt hSpos)
  constructor
  · show Real.sqrt (∑ i, (vOf raw i) ^ 2) = 1
    rw [hv2]
    exact Real.sqrt_one
  · show (∑ i, cOf raw i * vOf raw i) = 0
    have hcv : (∑ i, cOf raw i * vOf raw i)
        = dotOf raw - dotOf raw * (∑ i, (vOf raw i) ^ 2) := by
      simp only [cOf, sub_mul, Finset.sum_sub_distrib]
      congr 1
      rw [Finset.mul_sum]
      exact Finset.sum_congr rfl fun i _ => by ring
    rw [hcv, hv2, mul_one, sub_self]

/-- C1 (witness): the amended theorem applied at the raw output
`(1,0,0,0,0,0)`, whose `v_raw` has norm `1 ≥ ε`. -/
theorem c1_canonicalizer_witness :
    ((1e-8 : ℝ) ≤ vnormOf (fun i => if i.1 = 0 then 1 else 0)) ∧
    (Real.sqrt (∑ i, ((canonicalize (fun i => if i.1 = 0 then 1 else 0)).1 i) ^ 2) = 1 ∧
     (∑ i, (canonicalize (fun i => if i.1 = 0 then 1 else 0)).2 i *
        (canonicalize (fun i => if i.1 = 0 then 1 else 0)).1 i) = 0) := by
  have hn : vnormOf (fun i => if i.1 = 0 then 1 else 0) = 1 := by
    unfold vnormOf vrawOf
    rw [Fin.sum_univ_three]
    norm_num
  have h : (1e-8 : ℝ) ≤ vnormOf (fun i => if i.1 = 0 then 1 else 0) := by
    rw [hn]; norm_num
  exact ⟨h, c1_canonicalizer _ h⟩

/-! ### C8: the forward shape guard is unreachable from the padder -/

/-- C8: `forward` rejects exactly the inputs that are not rank-3 with last
dimension 3, and the batch array built by `pad_points` from any non-empty
beam list has shape `[B, target_n, 3]`, which the guard accepts. -/
theorem c8_shape_guard (beams : List Beam) (hne : beams ≠ []) (targetOpt : Option ℕ) :
    (∀ shape : List ℕ,
        forwardShapeRejects shape = true ↔ ¬(shape.length = 3 ∧ sizeLast shape = some 3))
    ∧ forwardShapeRejects (padShape beams targetOpt) = false := by
  refine ⟨fun shape => ?_, rfl⟩
  simp only [forwardShapeRejects, Bool.or_eq_true, bne_iff_ne, ne_eq]
  tauto

/-- C8 (witness): the guard characterization and its unreachability at the
concrete one-beam list `[⟨7, [(0,0,0)]⟩]`. -/
theorem c8_shape_guard_witness :
    ([Beam.mk 7 [(0, 0, 0)]] ≠ ([] : List Beam)) ∧
    ((∀ shape : List ℕ,
        forwardShapeRejects shape = true ↔ ¬(shape.length = 3 ∧ sizeLast shape = some 3))
     ∧ forwardShapeRejects (padShape [Beam.mk 7 [(0, 0, 0)]] none) = false) :=
  ⟨by decide, c8_shape_guard [Beam.mk 7 [(0, 0, 0)]] (by decide) none⟩

/-! ### C5: the Batch Padder -/

lemma foldl_max_init_le (l : List ℕ) : ∀ a : ℕ, a ≤ l.foldl max a := by
  induction l with
  | nil => intro a; exact le_refl a
  | cons x xs ih =>
    intro a
    exact le_trans (le_max_left a x) (ih (max a x))

lemma mem_le_foldl_max (l : List ℕ) : ∀ a : ℕ, ∀ x ∈ l, x ≤ l.foldl max a := by
  induction l with
  | nil => intro a x hx; cases hx
  | cons y ys ih =>
    intro a x hx
    rcases List.mem_cons.mp hx with h | h
    · subst h
      exact le_trans (le_max_right a x) (foldl_max_init_le ys (max a x))
    · exact ih (max a y) x h

lemma foldl_max_eq_or_mem (l : List ℕ) : ∀ a : ℕ, l.foldl max a = a ∨ l.foldl max a ∈ l := by
  induction l with
  | nil => intro a; exact Or.inl rfl
  | cons x xs ih =>
    intro a
    rcases ih (max a x) with h | h
    · rcases max_choice a x with hm | hm
      · exact Or.inl (by rw [List.foldl_cons, h, hm])
      · exact Or.inr (by rw [List.foldl_cons, h, hm]; exact List.mem_cons_self x xs)
    · exact Or.inr (List.mem_cons_of_mem x h)

/-- Every size is at most `pyMax`. -/
lemma le_pyMax (l : List ℕ) (x : ℕ) (hx : x ∈ l) : x ≤ pyMax l :=
  mem_le_foldl_max l 0 x hx

/-- On a non-empty list, `pyMax` is attained (it is Python's `max`). -/
lemma pyMax_mem (l : List ℕ) (h : l ≠ []) : pyMax l ∈ l := by
  rcases foldl_max_eq_or_mem l 0 with h0 | hm
  · obtain ⟨x, hx⟩ := List.exists_mem_of_ne_nil l h
    have hx0 : x = 0 := Nat.le_zero.mp (by rw [← h0]; exact le_pyMax l x hx)
    unfold pyMax
    rw [h0, ← hx0]
    exact hx
  · exact hm

lemma padRow_length (pts : List Pt3) (target : ℕ) : (padRow pts target).length = target := by
  unfold padRow
  split
  · rw [List.length_take]; omega
  · rw [List.length_append, List.length_replicate]; omega

lemma maskRow_length (n target : ℕ) : (maskRow n target).length = target := by
  unfold maskRow
  split
  · rw [List.length_replicate]
  · rw [List.length_append, List.length_replicate, List.length_replicate]; omega

lemma padRow_getD_of_lt (pts : List Pt3) (target j : ℕ) (hj : j < pts.length)
    (hjt : j < target) : (padRow pts target).getD j zeroPt = pts.getD j zeroPt := by
  unfold padRow
  rw [List.getD_eq_getElem?_getD, List.getD_eq_getElem?_getD]
  split
  · rw [List.getElem?_take_of_lt hjt]
  · rw [List.getElem?_append_left hj]

lemma padRow_getD_pad (pts : List Pt3) (target j : ℕ) (hn : pts.length < target)
    (hj1 : pts.length ≤ j) (hj2 : j < target) :
    (padRow pts target).getD j zeroPt = zeroPt := by
  unfold padRow
  rw [if_neg (by omega), List.getD_eq_getElem?_getD, List.getElem?_append_right hj1,
    List.getElem?_replicate_of_lt (by omega)]
  rfl

lemma maskRow_getD_full (n target j : ℕ) (h : target ≤ n) (hj : j < target) :
    (maskRow n target).getD j false = true := by
  unfold maskRow
  rw [if_pos h, List.getD_eq_getElem?_getD, List.getElem?_replicate_of_lt hj]
  rfl

lemma maskRow_getD_true (n target j : ℕ) (hn : n < target) (hj : j < n) :
    (maskRow n target).getD j false = true := by
  unfold maskRow
  rw [if_neg (by omega), List.getD_eq_getElem?_getD,
    List.getElem?_append_left (by rw [List.length_replicate]; exact hj),
    List.getElem?_replicate_of_lt hj]
  rfl

lemma maskRow_getD_false (n target j : ℕ) (hn : n < target) (hj1 : n ≤ j) (hj2 : j < target) :
    (maskRow n target).getD j false = false := by
  unfold maskRow
  rw [if_neg (by omega), List.getD_eq_getElem?_getD,
    List.getElem?_append_right (by rw [List.length_replicate]; exact hj1),
    List.getElem?_replicate_of_lt (by rw [List.length_replicate]; omega)]
  rfl

/-- C5: with no explicit `target_n`, the padder uses the maximal point count
`t` of the (non-empty) beam list; `x` and `mask` have one row of length `t`
per beam; a beam with `count ≥ t` contributes its first `t` points in order
with an all-true mask row, and a shorter beam contributes all its points
followed by zero padding, with exactly its first `count` mask entries true. -/
theorem c5_pad_points (beams : List Beam) (hne : beams ≠ []) :
    (∀ b ∈ beams, b.points.length ≤ pyMax (beams.map fun b => b.points.length)) ∧
    (∃ b ∈ beams, b.points.length = pyMax (beams.map fun b => b.points.length)) ∧
    (padPoints beams none).1.length = beams.length ∧
    (padPoints beams none).2.1.length = beams.length ∧
    (∀ i, i < beams.length →
      letI t := pyMax (beams.map fun b => b.points.length)
      letI pts := (beams.getD i default).points
      letI row := (padPoints beams none).1.getD i []
      letI mrow := (padPoints beams none).2.1.getD i []
      row.length = t ∧ mrow.length = t ∧
      (t ≤ pts.length →
        (∀ j, j < t → row.getD j zeroPt = pts.getD j zeroPt) ∧
        (∀ j, j < t → mrow.getD j false = true)) ∧
      (pts.length < t →
        (∀ j, j < pts.length → row.getD j zeroPt = pts.getD j zeroPt) ∧
        (∀ j, pts.length ≤ j → j < t → row.getD j zeroPt = zeroPt) ∧
        (∀ j, j < pts.length → mrow.getD j false = true) ∧
        (∀ j, pts.length ≤ j → j < t → mrow.getD j false = false))) := by
  have hsz : (beams.map fun b => b.points.length) ≠ [] := by
    simpa using hne
  refine ⟨?_, ?_, ?_, ?_, ?_⟩
  · intro b hb
    exact le_pyMax _ _ (List.mem_map_of_mem _ hb)
  · have := pyMax_mem _ hsz
    obtain ⟨b, hb, hbe⟩ := List.mem_map.mp this
    exact ⟨b, hb, hbe⟩
  · simp [padPoints]
  · simp [padPoints]
  · intro i hi
    have hrow : (padPoints beams none).1.getD i []
        = padRow (beams.getD i default).points (pyMax (beams.map fun b => b.points.length)) := by
      simp only [padPoints, Option.getD_none]
      rw [List.getD_eq_getElem?_getD, List.getElem?_map,
        List.getElem?_eq_getElem hi, List.getD_eq_getElem?_getD,
        List.getElem?_eq_getElem hi]
      rfl
    have hmrow : (padPoints beams none).2.1.getD i []
        = maskRow (beams.getD i default).points.length
            (pyMax (beams.map fun b => b.points.length)) := by
      simp only [padPoints, Option.getD_none]
      rw [List.getD_eq_getElem?_getD, List.getElem?_map, List.getElem?_map,
        List.getElem?_eq_getElem hi, List.getD_eq_getElem?_getD,
        List.getElem?_eq_getElem hi]
      rfl
    rw [hrow, hmrow]
    refine ⟨padRow_length _ _, maskRow_length _ _, fun hge => ⟨?_, ?_⟩, fun hlt => ⟨?_, ?_, ?_, ?_⟩⟩
    · intro j hj
      exact padRow_getD_of_lt _ _ _ (lt_of_lt_of_le hj hge) hj
    · intro j hj
      exact maskRow_getD_full _ _ _ hge hj
    · intro j hj
      exact padRow_getD_of_lt _ _ _ hj (lt_trans hj hlt)
    · intro j hj1 hj2
      exact padRow_getD_pad _ _ _ hlt hj1 hj2
    · intro j hj
      exact maskRow_getD_true _ _ _ hlt hj
    · intro j hj1 hj2
      exact maskRow_getD_false _ _ _ hlt hj1 hj2

/-- C5 (witness): the padder theorem applied to a concrete two-beam list
with counts 1 and 2 (so `target_n = 2`, one row truncation-free and full,
one row zero-padded with a mixed mask). -/
theorem c5_pad_points_witness :
    ([Beam.mk 1 [(0, 0, 0)], Beam.mk 2 [(1, 0, 0), (0, 1, 0)]] ≠ ([] : List Beam)) ∧
    ((∀ b ∈ [Beam.mk 1 [(0, 0, 0)], Beam.mk 2 [(1, 0, 0), (0, 1, 0)]],
        b.points.length
          ≤ pyMax ([Beam.mk 1 [(0, 0, 0)], Beam.mk 2 [(1, 0, 0), (0, 1, 0)]].map
              fun b => b.points.length)) ∧
     (∃ b ∈ [Beam.mk 1 [(0, 0, 0)], Beam.mk 2 [(1, 0, 0), (0, 1, 0)]],
        b.points.length
          = pyMax ([Beam.mk 1 [(0, 0, 0)], Beam.mk 2 [(1, 0, 0), (0, 1, 0)]].map
              fun b => b.points.length)) ∧
     (padPoints [Beam.mk 1 [(0, 0, 0)], Beam.mk 2 [(1, 0, 0), (0, 1, 0)]] none).1.length
        = [Beam.mk 1 [(0, 0, 0)], Beam.mk 2 [(1, 0, 0), (0, 1, 0)]].length ∧
     (padPoints [Beam.mk 1 [(0, 0, 0)], Beam.mk 2 [(1, 0, 0), (0, 1, 0)]] none).2.1.length
        = [Beam.mk 1 [(0, 0, 0)], Beam.mk 2 [(1, 0, 0), (0, 1, 0)]].length ∧
     (∀ i, i < [Beam.mk 1 [(0, 0, 0)], Beam.mk 2 [(1, 0, 0), (0, 1, 0)]].length →
      letI t := pyMax ([Beam.mk 1 [(0, 0, 0)], Beam.mk 2 [(1, 0, 0), (0, 1, 0)]].map
          fun b => b.points.length)
      letI pts := ([Beam.mk 1 [(0, 0, 0)], Beam.mk 2 [(1, 0, 0), (0, 1, 0)]].getD i default).points
      letI row := (padPoints [Beam.mk 1 [(0, 0, 0)], Beam.mk 2 [(1, 0, 0), (0, 1, 0)]] none).1.getD i []
      letI mrow := (padPoints [Beam.mk 1 [(0, 0, 0)], Beam.mk 2 [(1, 0, 0), (0, 1, 0)]] none).2.1.getD i []
      row.length = t ∧ mrow.length = t ∧
      (t ≤ pts.length →
        (∀ j, j < t → row.getD j zeroPt = pts.getD j zeroPt) ∧
        (∀ j, j < t → mrow.getD j false = true)) ∧
      (pts.length < t →
        (∀ j, j < pts.length → row.getD j zeroPt = pts.getD j zeroPt) ∧
        (∀ j, pts.length ≤ j → j < t → row.getD j zeroPt = zeroPt) ∧
        (∀ j, j < pts.length → mrow.getD j false = true) ∧
        (∀ j, pts.length ≤ j → j < t → mrow.getD j false = false)))) :=
  ⟨by decide, c5_pad_points _ (by decide)⟩

/-! ### The parser: line predicates and step lemmas -/

lemma step_header (st : PState) (l : String) (i : ℤ) (h : IsHeaderFor l i) :
    step st l = .ok ⟨some i, [], st.beams⟩ := by
  obtain ⟨h1, h2, h3⟩ := h
  have hne : pyTrim l ≠ "" := by
    intro e
    rw [e] at h1
    exact absurd h1 (by decide)
  unfold step
  rw [if_neg hne, if_pos h1, if_neg (by omega), h3]

lemma step_end_flush (st : PState) (l : String) (hl : IsEndLine l) (i : ℤ)
    (hid : st.curId = some i) (hpts : st.curPts ≠ []) :
    step st l = .ok ⟨none, [], st.beams ++ [⟨i, st.curPts⟩]⟩ := by
  unfold step
  rw [hl, if_neg (by decide), if_neg (by decide), if_pos rfl, hid]
  simp [hpts]

lemma step_end_empty (st : PState) (l : String) (hl : IsEndLine l) (i : ℤ)
    (hid : st.curId = some i) (hpts : st.curPts = []) :
    step st l = .ok ⟨none, [], st.beams⟩ := by
  unfold step
  rw [hl, if_neg (by decide), if_neg (by decide), if_pos rfl, hid]
  simp [hpts]

lemma step_coord (st : PState) (l : String) (p : Pt3) (h : IsCoordFor l p) :
    step st l = .ok ⟨st.curId, st.curPts ++ [p], st.beams⟩ := by
  obtain ⟨h1, h2, h3, h4, h5, h6, h7⟩ := h
  unfold step
  rw [if_neg h1, if_neg (by rw [h2]; exact Bool.false_ne_true), if_neg h3,
    if_neg (by omega), h5, h6, h7]

/-- Processing the coordinate lines of a block body appends their points to
the open accumulator, in order. -/
lemma foldlM_body (body : List (String × Pt3)) :
    ∀ (i : ℤ) (pts : List Pt3) (bs : List Beam),
      (∀ q ∈ body, IsCoordFor q.1 q.2) →
      List.foldlM step ⟨some i, pts, bs⟩ (body.map Prod.fst)
        = .ok ⟨some i, pts ++ body.map Prod.snd, bs⟩ := by
  induction body with
  | nil =>
    intro i pts bs _
    simp
    rfl
  | cons q qs ih =>
    intro i pts bs h
    rw [List.map_cons, List.foldlM_cons, step_coord _ _ _ (h q (List.mem_cons_self q qs))]
    show List.foldlM step ⟨some i, pts ++ [q.2], bs⟩ (qs.map Prod.fst) = _
    rw [ih i (pts ++ [q.2]) bs fun r hr => h r (List.mem_cons_of_mem q hr)]
    simp

/-- Processing one well-formed block from any state: the accumulators are
reset, and the block appends exactly one beam — or none if its body is
empty. -/
lemma foldlM_block (b : WFBlock) (h : WFB b) (st : PState) :
    List.foldlM step st (blockLines b)
      = .ok ⟨none, [],
          st.beams ++ if b.body.isEmpty then []
            else [⟨b.id, b.body.map Prod.snd⟩]⟩ := by
  obtain ⟨hh, hb, he⟩ := h
  unfold blockLines
  show step st b.header >>=
      (fun s => List.foldlM step s (b.body.map Prod.fst ++ [b.endl])) = _
  rw [step_header st b.header b.id hh]
  show List.foldlM step ⟨some b.id, [], st.beams⟩ (b.body.map Prod.fst ++ [b.endl]) = _
  rw [List.foldlM_append, foldlM_body b.body b.id [] st.beams hb]
  show List.foldlM step ⟨some b.id, [] ++ b.body.map Prod.snd, st.beams⟩ [b.endl] = _
  cases hbody : b.body with
  | nil =>
    show step ⟨some b.id, [] ++ ([] : List (String × Pt3)).map Prod.snd, st.beams⟩ b.endl >>= pure = _
    rw [step_end_empty _ _ he b.id rfl (by simp)]
    simp
  | cons q qs =>
    show step ⟨some b.id, [] ++ ((q :: qs).map Prod.snd), st.beams⟩ b.endl >>= pure = _
    rw [step_end_flush _ _ he b.id rfl (by simp)]
    simp

/-- Processing a list of well-formed blocks from any accumulator state:
the surviving (non-empty-body) blocks are appended as beams, in order. -/
lemma foldlM_blocks (blocks : List WFBlock) :
    ∀ (cid : Option ℤ) (cpts : List Pt3) (bs0 : List Beam),
      (∀ b ∈ blocks, WFB b) →
      List.foldlM step ⟨cid, cpts, bs0⟩ ((blocks.map blockLines).flatten)
        = .ok ⟨if blocks.isEmpty then cid else none,
               if blocks.isEmpty then cpts else [],
               bs0 ++ (blocks.filter fun b => !b.body.isEmpty).map
                 (fun b => ⟨b.id, b.body.map Prod.snd⟩)⟩ := by
  induction blocks with
  | nil =>
    intro cid cpts bs0 _
    simp
    rfl
  | cons b rest ih =>
    intro cid cpts bs0 h
    rw [List.map_cons, List.flatten_cons, List.foldlM_append,
      foldlM_block b (h b (List.mem_cons_self b rest)) ⟨cid, cpts, bs0⟩]
    show List.foldlM step _ ((rest.map blockLines).flatten) = _
    rw [ih none [] _ fun x hx => h x (List.mem_cons_of_mem b hx)]
    cases hbe : b.body.isEmpty <;>
      simp [hbe, List.filter_cons, List.append_assoc, ite_self]

/-! ### C3: the parser on well-formed blocks -/

/-- C3: an input made of well-formed blocks parses successfully; each block
with a non-empty body contributes exactly one Beam carrying its id and its
points in original order, blocks whose `endbeam` arrives with zero
accumulated points are silently omitted, and the emitted Beams appear in
arrival order. -/
theorem c3_parser_blocks (blocks : List WFBlock) (h : ∀ b ∈ blocks, WFB b) :
    readBeamsText ((blocks.map blockLines).flatten)
      = .ok ((blocks.filter fun b => !b.body.isEmpty).map
          fun b => ⟨b.id, b.body.map Prod.snd⟩) := by
  unfold readBeamsText initPState
  rw [foldlM_blocks blocks none [] [] h]
  simp [Except.map]

/-- C3 (witness): two concrete blocks, the first with two points, the second
with an empty body; only the first survives, with its points in order. -/
theorem c3_parser_blocks_witness :
    (∀ b ∈ [WFBlock.mk 1 "beam 1" [("0 0 0", (0, 0, 0)), ("1 0 0", (1, 0, 0))] "endbeam",
            WFBlock.mk 2 "beam 2" [] "endbeam"], WFB b) ∧
    readBeamsText (([WFBlock.mk 1 "beam 1" [("0 0 0", (0, 0, 0)), ("1 0 0", (1, 0, 0))] "endbeam",
        WFBlock.mk 2 "beam 2" [] "endbeam"].map blockLines).flatten)
      = .ok (([WFBlock.mk 1 "beam 1" [("0 0 0", (0, 0, 0)), ("1 0 0", (1, 0, 0))] "endbeam",
          WFBlock.mk 2 "beam 2" [] "endbeam"].filter fun b => !b.body.isEmpty).map
          fun b => ⟨b.id, b.body.map Prod.snd⟩) :=
  ⟨by decide, c3_parser_blocks _ (by decide)⟩

/-! ### C9: end of file inside an open block -/

/-- C9: if the input ends while a beam block is still open (a header and any
body of valid coordinate lines, but no `endbeam`), the parser still returns
successfully and the trailing open block contributes nothing. -/
theorem c9_trailing_open_block (L : List String) (bs : List Beam)
    (hL : readBeamsText L = .ok bs) (h : String) (i : ℤ) (hh : IsHeaderFor h i)
    (body : List (String × Pt3)) (hbody : ∀ q ∈ body, IsCoordFor q.1 q.2) :
    readBeamsText (L ++ h :: body.map Prod.fst) = .ok bs := by
  unfold readBeamsText at hL ⊢
  rcases hfold : List.foldlM step initPState L with e | st
  · rw [hfold] at hL
    exact absurd hL (by simp [Except.map])
  · rw [hfold] at hL
    have hst : st.beams = bs := by
      simpa [Except.map] using hL
    rw [List.foldlM_append, hfold]
    show (List.foldlM step st (h :: body.map Prod.fst)).map PState.beams = .ok bs
    show (step st h >>= fun s => List.foldlM step s (body.map Prod.fst)).map PState.beams = .ok bs
    rw [step_header st h i hh]
    show (List.foldlM step ⟨some i, [], st.beams⟩ (body.map Prod.fst)).map PState.beams = .ok bs
    rw [foldlM_body body i [] st.beams hbody]
    simp [Except.map, hst]

/-- C9 (witness): a complete one-beam input followed by an unterminated
block `beam 2 / 1 2 3`; the result is the complete beam only. -/
theorem c9_trailing_open_block_witness :
    readBeamsText ["beam 1", "0 0 0", "endbeam"] = .ok [⟨1, [(0, 0, 0)]⟩] ∧
    IsHeaderFor "beam 2" 2 ∧
    (∀ q ∈ [("1 2 3", ((1 : ℚ), (2 : ℚ), (3 : ℚ)))], IsCoordFor q.1 q.2) ∧
    readBeamsText (["beam 1", "0 0 0", "endbeam"]
        ++ "beam 2" :: [("1 2 3", ((1 : ℚ), (2 : ℚ), (3 : ℚ)))].map Prod.fst)
      = .ok [⟨1, [(0, 0, 0)]⟩] :=
  ⟨by decide, by decide, by decide,
    c9_trailing_open_block _ _ (by decide) _ 2 (by decide) _ (by decide)⟩

/-! ### C10: a header while a block is open -/

/-- C10: a `beam` header met while a previous block is still open does not
fail: it discards the accumulated points of the previous header, which
contributes no Beam, and the new block parses normally. -/
theorem c10_header_reopens (h1 h2 e : String) (i1 i2 : ℤ)
    (b1 b2 : List (String × Pt3)) (hh1 : IsHeaderFor h1 i1) (hh2 : IsHeaderFor h2 i2)
    (hb1 : ∀ q ∈ b1, IsCoordFor q.1 q.2) (hb2 : ∀ q ∈ b2, IsCoordFor q.1 q.2)
    (hne : b2 ≠ []) (he : IsEndLine e) :
    readBeamsText (h1 :: (b1.map Prod.fst ++ (h2 :: (b2.map Prod.fst ++ [e]))))
      = .ok [⟨i2, b2.map Prod.snd⟩] := by
  unfold readBeamsText initPState
  show (step ⟨none, [], []⟩ h1 >>=
      fun s => List.foldlM step s (b1.map Prod.fst ++ (h2 :: (b2.map Prod.fst ++ [e])))).map
        PState.beams = _
  rw [step_header _ h1 i1 hh1]
  show (List.foldlM step ⟨some i1, [], []⟩
      (b1.map Prod.fst ++ (h2 :: (b2.map Prod.fst ++ [e])))).map PState.beams = _
  rw [List.foldlM_append, foldlM_body b1 i1 [] [] hb1]
  show (step ⟨some i1, [] ++ b1.map Prod.snd, []⟩ h2 >>=
      fun s => List.foldlM step s (b2.map Prod.fst ++ [e])).map PState.beams = _
  rw [step_header _ h2 i2 hh2]
  show (List.foldlM step ⟨some i2, [], []⟩ (b2.map Prod.fst ++ [e])).map PState.beams = _
  rw [List.foldlM_append, foldlM_body b2 i2 [] [] hb2]
  show (step ⟨some i2, [] ++ b2.map Prod.snd, []⟩ e >>= pure).map PState.beams = _
  rw [step_end_flush _ _ he i2 rfl (by
    intro hmap
    rw [List.nil_append] at hmap
    exact hne (List.map_eq_nil_iff.mp hmap))]
  simp [Except.map]

/-- C10 (witness): `beam 1 / 9 9 9 / beam 2 / 1 2 3 / endbeam` parses with no
error to the single beam 2; beam 1's accumulated point is discarded. -/
theorem c10_header_reopens_witness :
    IsHeaderFor "beam 1" 1 ∧ IsHeaderFor "beam 2" 2 ∧
    (∀ q ∈ [("9 9 9", ((9 : ℚ), (9 : ℚ), (9 : ℚ)))], IsCoordFor q.1 q.2) ∧
    (∀ q ∈ [("1 2 3", ((1 : ℚ), (2 : ℚ), (3 : ℚ)))], IsCoordFor q.1 q.2) ∧
    ([("1 2 3", ((1 : ℚ), (2 : ℚ), (3 : ℚ)))] ≠ ([] : List (String × Pt3))) ∧
    IsEndLine "endbeam" ∧
    readBeamsText ("beam 1" :: ([("9 9 9", ((9 : ℚ), (9 : ℚ), (9 : ℚ)))].map Prod.fst
        ++ ("beam 2" :: ([("1 2 3", ((1 : ℚ), (2 : ℚ), (3 : ℚ)))].map Prod.fst ++ ["endbeam"]))))
      = .ok [⟨2, [("1 2 3", ((1 : ℚ), (2 : ℚ), (3 : ℚ)))].map Prod.snd⟩] :=
  ⟨by decide, by decide, by decide, by decide, by decide, by decide,
    c10_header_reopens "beam 1" "beam 2" "endbeam" 1 2 _ _
      (by decide) (by decide) (by decide) (by decide) (by decide) (by decide)⟩

/-! ### C4: coordinate-line validation -/

/-- C4 (counterexample): inside a beam block, the coordinate line
`"1 2 3 4"` tokenizes into four tokens, not exactly three; the claim says
any such line makes the parser fail, but the code only checks
`len(parts) < 3`: the line is accepted, the extra token is ignored, and the
whole input parses to one beam with the point `(1, 2, 3)`. -/
theorem c4_extra_tokens_accepted :
    step ⟨some 1, [], []⟩ "1 2 3 4" = .ok ⟨some 1, [(1, 2, 3)], []⟩ ∧
    readBeamsText ["beam 1", "1 2 3 4", "endbeam"] = .ok [⟨1, [(1, 2, 3)]⟩] :=
  ⟨by decide, by decide⟩

/-- C4 (amended): while inside a beam block, a line reaching the coordinate
branch fails exactly when it has fewer than 3 tokens or one of its first
three tokens does not parse as a float (tokens beyond the third are
ignored); a line with fewer than 3 tokens fails with an error carrying the
offending line, and a line whose first three tokens parse as floats appends
that point to the open beam. -/
theorem c4_coord_line_errors (st : PState) (i : ℤ) (hin : st.curId = some i) (l : String)
    (h1 : pyTrim l ≠ "") (h2 : startsBeam (pyTrim l) = false) (h3 : pyTrim l ≠ "endbeam") :
    ((∃ e, step st l = .error e) ↔
      ¬(3 ≤ (pySplit (pyTrim l)).length ∧
        (pyFloat ((pySplit (pyTrim l)).getD 0 "")).isSome = true ∧
        (pyFloat ((pySplit (pyTrim l)).getD 1 "")).isSome = true ∧
        (pyFloat ((pySplit (pyTrim l)).getD 2 "")).isSome = true))
    ∧ ((pySplit (pyTrim l)).length < 3 → step st l = .error (.badPoint (pyTrim l)))
    ∧ (∀ p : Pt3, IsCoordFor l p → step st l = .ok ⟨st.curId, st.curPts ++ [p], st.beams⟩) := by
  have key : step st l =
      (if (pySplit (pyTrim l)).length < 3 then Except.error (PErr.badPoint (pyTrim l))
       else match pyFloat ((pySplit (pyTrim l)).getD 0 "") with
       | none => Except.error (.badFloatToken ((pySplit (pyTrim l)).getD 0 ""))
       | some x =>
         match pyFloat ((pySplit (pyTrim l)).getD 1 "") with
         | none => Except.error (.badFloatToken ((pySplit (pyTrim l)).getD 1 ""))
         | some y =>
           match pyFloat ((pySplit (pyTrim l)).getD 2 "") with
           | none => Except.error (.badFloatToken ((pySplit (pyTrim l)).getD 2 ""))
           | some z => Except.ok ⟨st.curId, st.curPts ++ [(x, y, z)], st.beams⟩) := by
    unfold step
    rw [if_neg h1, if_neg (by rw [h2]; exact Bool.false_ne_true), if_neg h3]
  refine ⟨⟨?_, ?_⟩, ?_, fun p hp => step_coord st l p hp⟩
  · rintro ⟨e, he⟩ ⟨hA, hB, hC, hD⟩
    obtain ⟨x, hx⟩ := Option.isSome_iff_exists.mp hB
    obtain ⟨y, hy⟩ := Option.isSome_iff_exists.mp hC
    obtain ⟨z, hz⟩ := Option.isSome_iff_exists.mp hD
    rw [key, if_neg (by omega), hx, hy, hz] at he
    exact Except.noConfusion he
  · intro hcon
    by_cases hA : 3 ≤ (pySplit (pyTrim l)).length
    · rcases hx : pyFloat ((pySplit (pyTrim l)).getD 0 "") with _ | x
      · exact ⟨_, by rw [key, if_neg (by omega), hx]⟩
      · rcases hy : pyFloat ((pySplit (pyTrim l)).getD 1 "") with _ | y
        · exact ⟨_, by rw [key, if_neg (by omega), hx, hy]⟩
        · rcases hz : pyFloat ((pySplit (pyTrim l)).getD 2 "") with _ | z
          · exact ⟨_, by rw [key, if_neg (by omega), hx, hy, hz]⟩
          · exact absurd ⟨hA, by rw [hx]; rfl, by rw [hy]; rfl, by rw [hz]; rfl⟩ hcon
    · exact ⟨_, by rw [key, if_pos (by omega)]⟩
  · intro hlt
    rw [key, if_pos hlt]

/-- C4 (witness): the amended theorem at the concrete open-beam state
`⟨some 1, [], []⟩` and the two-token line `"1 2"`. -/
theorem c4_coord_line_errors_witness :
    ((⟨some 1, [], []⟩ : PState).curId = some 1) ∧
    (pyTrim "1 2" ≠ "") ∧ (startsBeam (pyTrim "1 2") = false) ∧
    (pyTrim "1 2" ≠ "endbeam") ∧
    (((∃ e, step ⟨some 1, [], []⟩ "1 2" = .error e) ↔
      ¬(3 ≤ (pySplit (pyTrim "1 2")).length ∧
        (pyFloat ((pySplit (pyTrim "1 2")).getD 0 "")).isSome = true ∧
        (pyFloat ((pySplit (pyTrim "1 2")).getD 1 "")).isSome = true ∧
        (pyFloat ((pySplit (pyTrim "1 2")).getD 2 "")).isSome = true))
    ∧ ((pySplit (pyTrim "1 2")).length < 3 →
        step ⟨some 1, [], []⟩ "1 2" = .error (.badPoint (pyTrim "1 2")))
    ∧ (∀ p : Pt3, IsCoordFor "1 2" p →
        step ⟨some 1, [], []⟩ "1 2"
          = .ok ⟨(⟨some 1, [], []⟩ : PState).curId,
              (⟨some 1, [], []⟩ : PState).curPts ++ [p],
              (⟨some 1, [], []⟩ : PState).beams⟩)) :=
  ⟨rfl, by decide, by decide, by decide,
    c4_coord_line_errors ⟨some 1, [], []⟩ 1 rfl "1 2" (by decide) (by decide) (by decide)⟩

/-! ### C6: one prediction per beam, in input order, with t1 = t2 = 0 -/

lemma chunk_flatten {α : Type} (bs : ℕ) (hbs : 1 ≤ bs) (l : List α) :
    (chunk bs l).flatten = l := by
  rw [chunk]
  split
  · rename_i h
    rcases h with h | h
    · rw [List.isEmpty_iff.mp h]
      rfl
    · omega
  · rw [List.flatten_cons, chunk_flatten bs hbs (l.drop bs), List.take_append_drop]
termination_by l.length
decreasing_by
  rename_i h
  push_neg at h
  have hl : l ≠ [] := by intro e; subst e; exact h.1 rfl
  simp only [List.length_drop]
  exact Nat.sub_lt (List.length_pos.mpr hl) (by omega)

lemma chunk_mem_subset {α : Type} (bs : ℕ) (hbs : 1 ≤ bs) (l : List α) (c : List α)
    (hc : c ∈ chunk bs l) : ∀ x ∈ c, x ∈ l := by
  intro x hx
  rw [← chunk_flatten bs hbs l]
  exact List.mem_flatten.mpr ⟨c, hc, hx⟩

lemma chunk_mem_ne_nil_aux {α : Type} (bs : ℕ) :
    ∀ (n : ℕ) (l : List α), l.length ≤ n → ∀ c ∈ chunk bs l, c ≠ [] := by
  intro n
  induction n with
  | zero =>
    intro l hl c hc
    have hnil : l = [] := List.eq_nil_of_length_eq_zero (Nat.le_zero.mp hl)
    subst hnil
    rw [chunk] at hc
    simp at hc
  | succ n ih =>
    intro l hl c hc
    rw [chunk] at hc
    split at hc
    · cases hc
    · rename_i hcond
      push_neg at hcond
      have hlne : l ≠ [] := by intro e; subst e; exact hcond.1 rfl
      rcases List.mem_cons.mp hc with h | h
      · subst h
        intro he
        rcases List.take_eq_nil_iff.mp he with h0 | h0
        · exact hcond.2 h0
        · exact hlne h0
      · refine ih (l.drop bs) ?_ c h
        have h1 : 0 < l.length := List.length_pos.mpr hlne
        have h2 : 0 < bs := Nat.pos_of_ne_zero hcond.2
        simp only [List.length_drop]
        omega

lemma chunk_mem_ne_nil {α : Type} (bs : ℕ) (l : List α) (c : List α)
    (hc : c ∈ chunk bs l) : c ≠ [] :=
  chunk_mem_ne_nil_aux bs l.length l le_rfl c hc

/-- Each mini-batch contributes one prediction per beam, carrying the
beam's id, in slice order. -/
lemma slicePreds_map_id (ck : PointNetReg c1 c2 c3 h1 h2) (s : List Beam) :
    (slicePreds ck s).map Prediction.id = s.map Beam.id := by
  simp [slicePreds, List.map_map]

/-- The writer emits exactly one `result <id>` header per prediction, in
list order. -/
lemma resultIds_writeResults (rs : List Prediction) :
    resultIds (writeResultsText rs) = rs.map Prediction.id := by
  induction rs with
  | nil => rfl
  | cons r rest ih =>
    simp only [writeResultsText, List.flatMap_cons, resultIds, List.filterMap_append]
    simp only [writeResultsText, resultIds] at ih
    rw [ih]
    rfl

/-- C6: the pipeline yields exactly one Prediction per parsed Beam carrying
that Beam's id; predictions appear in input order regardless of mini-batch
boundaries; `t1 = t2 = 0` always; and the writer emits the result blocks in
that same order. -/
theorem c6_pipeline_order (ck : PointNetReg c1 c2 c3 h1 h2) (beams : List Beam) (bs : ℕ)
    (hbs : 1 ≤ bs) :
    (runInference ck beams bs).map Prediction.id = beams.map Beam.id ∧
    (∀ p ∈ runInference ck beams bs, p.t1 = 0 ∧ p.t2 = 0) ∧
    resultIds (writeResultsText (runInference ck beams bs)) = beams.map Beam.id := by
  have hids : (runInference ck beams bs).map Prediction.id = beams.map Beam.id := by
    unfold runInference
    rw [List.map_flatten, List.map_map]
    have hcong : (chunk bs beams).map (List.map Prediction.id ∘ slicePreds ck)
        = (chunk bs beams).map (List.map Beam.id) :=
      List.map_eq_map_iff.mpr fun s _ => slicePreds_map_id ck s
    rw [hcong, ← List.map_flatten, chunk_flatten bs hbs]
  refine ⟨hids, ?_, ?_⟩
  · intro p hp
    unfold runInference at hp
    rw [List.mem_flatten] at hp
    obtain ⟨c, hc, hpc⟩ := hp
    rw [List.mem_map] at hc
    obtain ⟨s, _, rfl⟩ := hc
    unfold slicePreds at hpc
    rw [List.mem_map] at hpc
    obtain ⟨b, _, rfl⟩ := hpc
    exact ⟨rfl, rfl⟩
  · rw [resultIds_writeResults, hids]

/-- C6 (witness): the ordering theorem at a concrete checkpoint-shaped
model (all parameters zero) and a two-beam list with the default batch
size 32. -/
theorem c6_pipeline_order_witness :
    (1 ≤ 32) ∧
    ((runInference ckZero [Beam.mk 4 [(0, 0, 0)], Beam.mk 9 [(1, 0, 0), (0, 1, 0)]] 32).map
        Prediction.id
      = [Beam.mk 4 [(0, 0, 0)], Beam.mk 9 [(1, 0, 0), (0, 1, 0)]].map Beam.id ∧
     (∀ p ∈ runInference ckZero [Beam.mk 4 [(0, 0, 0)], Beam.mk 9 [(1, 0, 0), (0, 1, 0)]] 32,
        p.t1 = 0 ∧ p.t2 = 0) ∧
     resultIds (writeResultsText
        (runInference ckZero [Beam.mk 4 [(0, 0, 0)], Beam.mk 9 [(1, 0, 0), (0, 1, 0)]] 32))
      = [Beam.mk 4 [(0, 0, 0)], Beam.mk 9 [(1, 0, 0), (0, 1, 0)]].map Beam.id) :=
  ⟨by decide, c6_pipeline_order ckZero _ 32 (by decide)⟩

/-! ### C7: empty input aborts before the checkpoint is touched -/

/-- C7: if the input parses to zero beams, `main` fails with the
`No beams found` error for every checkpoint outcome and batch size — in
particular even when checkpoint loading would fail, because the abort
happens before the checkpoint is loaded — and no output is produced. -/
theorem c7_empty_input (lines : List String) (h : readBeamsText lines = .ok []) :
    ∀ (ckpt : Except String (PointNetReg 64 128 256 256 128)) (bs : ℕ),
      mainRun lines ckpt bs = .error .noBeams := by
  intro ckpt bs
  unfold mainRun
  rw [h]
  rfl

/-- C7 (witness): a blank input line plus a stray `endbeam` parse to zero
beams, and `main` reports `noBeams` even with a failing checkpoint. -/
theorem c7_empty_input_witness :
    readBeamsText ["", "endbeam"] = .ok [] ∧
    mainRun ["", "endbeam"] (.error "corrupt checkpoint") 32 = .error .noBeams :=
  ⟨by decide, c7_empty_input ["", "endbeam"] (by decide) (.error "corrupt checkpoint") 32⟩

/-! ### C2: batch-size invariance

The claim fails on the code: `pad_points` zero-pads shorter beams to the
mini-batch's maximal point count, the padded points pass through the
per-point transform like real points (the mask is never used), and the
max-pool can pick up their features.  Below, a concrete checkpoint-shaped
parameter set `ckX` (default architecture `64/128/256/256/128`, almost all
weights zero, each layer routing channel 0) makes the padded zero point
dominate the pool, so a beam's prediction differs between `--batch_size 1`
and `--batch_size 32`.  A nearby statement holds: when all beams have the
same point count, padding adds nothing and predictions are batch-size
invariant. -/

lemma deltaVec_self {c : ℕ} (i0 : Fin c) (t : ℝ) : deltaVec i0 t i0 = t := if_pos rfl

lemma linApp_deltaW {m n : ℕ} (i0 : Fin m) (j0 : Fin n) (cf : ℝ) (x : Fin n → ℝ) :
    linApp (deltaW i0 j0 cf) x = deltaVec i0 (cf * x j0) := by
  funext i
  unfold linApp deltaW deltaVec
  by_cases hi : i = i0
  · subst hi
    simp only [true_and]
    rw [Finset.sum_eq_single j0]
    · simp
    · intro b _ hb
      rw [if_neg hb, zero_mul]
    · intro hj
      exact absurd (Finset.mem_univ j0) hj
  · simp [hi]

lemma bnDelta_apply (c : ℕ) (i0 : Fin c) (b0 : ℝ) (x : Fin c → ℝ) :
    (bnDelta c i0 b0).apply x = deltaVec i0 (x i0 + b0) := by
  have hs : Real.sqrt ((1 - 1e-5) + 1e-5) = 1 := by
    norm_num
  funext i
  show (x i - 0) / Real.sqrt ((1 - 1e-5) + 1e-5) * deltaVec i0 1 i + deltaVec i0 b0 i = _
  rw [hs]
  unfold deltaVec
  by_cases hi : i = i0
  · subst hi
    simp
  · simp [hi]

lemma reluV_deltaVec {c : ℕ} (i0 : Fin c) (t : ℝ) :
    reluV (deltaVec i0 t) = deltaVec i0 (max 0 t) := by
  funext i
  unfold reluV deltaVec
  by_cases hi : i = i0 <;> simp [hi]

/-- Under `ckX`, the per-point feature is `relu(1 - x)` on channel 0 and
zero elsewhere. -/
lemma pointFeature_ckX (p : Fin 3 → ℝ) :
    pointFeature ckX p = deltaVec 0 (max 0 (1 - p 0)) := by
  unfold pointFeature ckX
  simp only [linApp_deltaW, bnDelta_apply, reluV_deltaVec, deltaVec_self, one_mul, add_zero]
  rw [← max_assoc, max_self, ← max_assoc, max_self]
  ring_nf

lemma headOut_ckX (row : List (Fin 3 → ℝ)) (d : ℝ)
    (hd : descriptor ckX row = deltaVec 0 d) (hd0 : 0 ≤ d) :
    headOut ckX (descriptor ckX row) = rawOf d := by
  rw [hd]
  unfold headOut ckX rawOf
  simp only [linApp_deltaW, bnDelta_apply, reluV_deltaVec, deltaVec_self, one_mul, add_zero]
  funext o
  rw [← max_assoc, max_self, max_eq_right hd0]
  unfold deltaVec
  by_cases h5 : o = (5 : Fin 6)
  · subst h5
    rw [if_pos rfl, if_neg (by decide), if_neg (by decide), if_pos (by decide)]
    ring
  · by_cases h0 : o = (0 : Fin 6)
    · subst h0
      rw [if_neg (by decide), if_pos rfl, if_pos (by decide)]
      ring
    · have hv0 : o.1 ≠ 0 := fun hv => h0 (Fin.ext hv)
      have hv5 : o.1 ≠ 5 := fun hv => h5 (Fin.ext hv)
      rw [if_neg h5, if_neg h0, if_neg hv0, if_neg hv5]
      ring

/-- The canonicalized `c`-output's third component equals the pooled value
`d` routed there by `ckX`. -/
lemma forwardRow_ckX_c (row : List (Fin 3 → ℝ)) (d : ℝ)
    (hd : descriptor ckX row = deltaVec 0 d) (hd0 : 0 ≤ d) :
    (forwardRow ckX row).2 2 = d := by
  show cOf (headOut ckX (descriptor ckX row)) 2 = d
  rw [headOut_ckX row d hd hd0]
  have e0 : vrawOf (rawOf d) 0 = 1 := by
    unfold vrawOf rawOf
    rw [if_pos (by decide)]
  have e1 : vrawOf (rawOf d) 1 = 0 := by
    unfold vrawOf rawOf
    rw [if_neg (by decide), if_neg (by decide)]
  have e2 : vrawOf (rawOf d) 2 = 0 := by
    unfold vrawOf rawOf
    rw [if_neg (by decide), if_neg (by decide)]
  have f0 : crawOf (rawOf d) 0 = 0 := by
    unfold crawOf rawOf
    rw [if_neg (by decide), if_neg (by decide)]
  have f1 : crawOf (rawOf d) 1 = 0 := by
    unfold crawOf rawOf
    rw [if_neg (by decide), if_neg (by decide)]
  have f2 : crawOf (rawOf d) 2 = d := by
    unfold crawOf rawOf
    rw [if_neg (by decide), if_pos (by decide)]
  have hnorm : vnormOf (rawOf d) = 1 := by
    unfold vnormOf
    rw [Fin.sum_univ_three, e0, e1, e2]
    norm_num
  have hclamp : max (vnormOf (rawOf d)) 1e-8 = 1 := by
    rw [hnorm]
    exact max_eq_left (by norm_num)
  have hv2 : vOf (rawOf d) 2 = 0 := by
    unfold vOf
    rw [e2, hclamp, zero_div]
  have hdot : dotOf (rawOf d) = 0 := by
    unfold dotOf
    rw [Fin.sum_univ_three, f0, f1, f2, hv2]
    ring
  unfold cOf
  rw [f2, hdot, hv2]
  ring

lemma toR3_x (a b c : ℚ) : toR3 (a, b, c) 0 = (a : ℝ) := rfl

lemma descriptor_ckX_single (p : Fin 3 → ℝ) :
    descriptor ckX [p] = deltaVec 0 (max 0 (1 - p 0)) := by
  funext k
  unfold descriptor
  rw [List.map_cons, List.map_nil, pointFeature_ckX]
  rfl

lemma descriptor_ckX_pair (p q : Fin 3 → ℝ) :
    descriptor ckX [p, q]
      = fun k => max (deltaVec 0 (max 0 (1 - p 0)) k) (deltaVec 0 (max 0 (1 - q 0)) k) := by
  funext k
  unfold descriptor
  rw [List.map_cons, List.map_cons, List.map_nil, pointFeature_ckX, pointFeature_ckX]
  rfl

lemma featval_two : max 0 (1 - toR3 ((2 : ℚ), (0 : ℚ), (0 : ℚ)) 0) = (0 : ℝ) := by
  rw [toR3_x]
  have h2 : (1 : ℝ) - ((2 : ℚ) : ℝ) = -1 := by norm_num
  rw [h2]
  exact max_eq_left (by norm_num)

lemma featval_zero : max 0 (1 - toR3 ((0 : ℚ), (0 : ℚ), (0 : ℚ)) 0) = (1 : ℝ) := by
  rw [toR3_x]
  have h0 : (1 : ℝ) - ((0 : ℚ) : ℝ) = 1 := by norm_num
  rw [h0]
  exact max_eq_right (by norm_num)

lemma desc_b1_alone : descriptor ckX [toR3 ((2 : ℚ), (0 : ℚ), (0 : ℚ))] = deltaVec 0 0 := by
  rw [descriptor_ckX_single, featval_two]

lemma desc_b1_padded :
    descriptor ckX [toR3 ((2 : ℚ), (0 : ℚ), (0 : ℚ)), toR3 ((0 : ℚ), (0 : ℚ), (0 : ℚ))]
      = deltaVec 0 1 := by
  rw [descriptor_ckX_pair, featval_two, featval_zero]
  funext k
  unfold deltaVec
  by_cases hk : k = (0 : Fin 256)
  · rw [if_pos hk, if_pos hk]
    exact max_eq_right (by norm_num)
  · rw [if_neg hk, if_neg hk]
    exact max_self 0

lemma desc_b2 :
    descriptor ckX [toR3 ((2 : ℚ), (0 : ℚ), (0 : ℚ)), toR3 ((2 : ℚ), (0 : ℚ), (0 : ℚ))]
      = deltaVec 0 0 := by
  rw [descriptor_ckX_pair, featval_two]
  funext k
  unfold deltaVec
  by_cases hk : k = (0 : Fin 256)
  · rw [if_pos hk]
    exact max_self 0
  · rw [if_neg hk]
    exact max_self 0

lemma chunk_nil {α : Type} (bs : ℕ) : chunk bs ([] : List α) = [] := by
  rw [chunk]
  simp

lemma chunk_step {α : Type} (bs : ℕ) (l : List α) (hbs : bs ≠ 0) (hl : l ≠ []) :
    chunk bs l = l.take bs :: chunk bs (l.drop bs) := by
  rw [chunk, if_neg]
  intro h
  rcases h with h | h
  · exact hl (List.isEmpty_iff.mp h)
  · exact hbs h

/-- The `c`-components written for each beam of a slice, as a function of
that slice's own padding target. -/
lemma slicePreds_c2_map (s : List Beam) :
    (slicePreds ckX s).map (fun p => p.c 2)
      = s.map (fun b => (forwardRow ckX ((padRow b.points
          (pyMax (s.map fun b => b.points.length))).map toR3)).2 2) := by
  simp [slicePreds, List.map_map]

/-- C2 (counterexample): on the input file `beam 1 / 2 0 0 / endbeam /
beam 2 / 2 0 0 / 2 0 0 / endbeam` and the checkpoint `ckX` (default
architecture), the pipeline's predictions differ between `--batch_size 1`
and `--batch_size 32`: beam 1's `c`-output third component is `0` alone in
its batch but `1` when batched with beam 2 and zero-padded — a difference
of 1, far beyond floating tolerance, so the predictions are not identical
for every beam. -/
theorem c2_padding_breaks_invariance :
    readBeamsText ["beam 1", "2 0 0", "endbeam", "beam 2", "2 0 0", "2 0 0", "endbeam"]
      = .ok [b1X, b2X] ∧
    ((runInference ckX [b1X, b2X] 1).map fun p => p.c 2) = [0, 0] ∧
    ((runInference ckX [b1X, b2X] 32).map fun p => p.c 2) = [1, 0] := by
  have hrow1 : (List.map toR3 [((2 : ℚ), (0 : ℚ), (0 : ℚ))])
      = [toR3 ((2 : ℚ), (0 : ℚ), (0 : ℚ))] := rfl
  have hc1 : (forwardRow ckX [toR3 ((2 : ℚ), (0 : ℚ), (0 : ℚ))]).2 2 = 0 :=
    forwardRow_ckX_c _ 0 desc_b1_alone le_rfl
  have hc1p : (forwardRow ckX [toR3 ((2 : ℚ), (0 : ℚ), (0 : ℚ)),
      toR3 ((0 : ℚ), (0 : ℚ), (0 : ℚ))]).2 2 = 1 :=
    forwardRow_ckX_c _ 1 desc_b1_padded (by norm_num)
  have hc2 : (forwardRow ckX [toR3 ((2 : ℚ), (0 : ℚ), (0 : ℚ)),
      toR3 ((2 : ℚ), (0 : ℚ), (0 : ℚ))]).2 2 = 0 :=
    forwardRow_ckX_c _ 0 desc_b2 le_rfl
  refine ⟨by decide, ?_, ?_⟩
  · have hchunk : chunk 1 [b1X, b2X] = [[b1X], [b2X]] := by
      rw [chunk_step 1 [b1X, b2X] (by decide) (by decide)]
      rw [show List.take 1 [b1X, b2X] = [b1X] from rfl,
        show List.drop 1 [b1X, b2X] = [b2X] from rfl]
      rw [chunk_step 1 [b2X] (by decide) (by decide)]
      rw [show List.take 1 [b2X] = [b2X] from rfl,
        show List.drop 1 [b2X] = ([] : List Beam) from rfl, chunk_nil]
    unfold runInference
    rw [hchunk]
    simp only [List.map_cons, List.map_nil, List.flatten_cons, List.flatten_nil,
      List.append_nil, List.map_append]
    rw [slicePreds_c2_map, slicePreds_c2_map]
    rw [show pyMax ([b1X].map fun b => b.points.length) = 1 from rfl]
    rw [show pyMax ([b2X].map fun b => b.points.length) = 2 from rfl]
    simp only [List.map_cons, List.map_nil]
    rw [show padRow b1X.points 1 = [((2 : ℚ), (0 : ℚ), (0 : ℚ))] from rfl]
    rw [show padRow b2X.points 2
        = [((2 : ℚ), (0 : ℚ), (0 : ℚ)), ((2 : ℚ), (0 : ℚ), (0 : ℚ))] from by decide]
    simp only [List.map_cons, List.map_nil]
    rw [hc1, hc2]
    rfl
  · have hchunk : chunk 32 [b1X, b2X] = [[b1X, b2X]] := by
      rw [chunk_step 32 [b1X, b2X] (by decide) (by decide)]
      rw [show List.take 32 [b1X, b2X] = [b1X, b2X] from rfl,
        show List.drop 32 [b1X, b2X] = ([] : List Beam) from rfl, chunk_nil]
    unfold runInference
    rw [hchunk]
    simp only [List.map_cons, List.map_nil, List.flatten_cons, List.flatten_nil,
      List.append_nil]
    rw [slicePreds_c2_map]
    rw [show pyMax ([b1X, b2X].map fun b => b.points.length) = 2 from rfl]
    simp only [List.map_cons, List.map_nil]
    rw [show padRow b1X.points 2
        = [((2 : ℚ), (0 : ℚ), (0 : ℚ)), ((0 : ℚ), (0 : ℚ), (0 : ℚ))] from by decide]
    rw [show padRow b2X.points 2
        = [((2 : ℚ), (0 : ℚ), (0 : ℚ)), ((2 : ℚ), (0 : ℚ), (0 : ℚ))] from by decide]
    simp only [List.map_cons, List.map_nil]
    rw [hc1p, hc2]

lemma pyMax_const (l : List ℕ) (n : ℕ) (hne : l ≠ []) (h : ∀ x ∈ l, x = n) :
    pyMax l = n :=
  h _ (pyMax_mem l hne)

/-- When every beam of a slice has point count `n`, the per-batch target is
`n` and padding is the identity, so the slice's predictions are the
beam-local ones. -/
lemma slicePreds_const (ck : PointNetReg c1 c2 c3 h1 h2) (s : List Beam) (n : ℕ)
    (hne : s ≠ []) (h : ∀ b ∈ s, b.points.length = n) :
    slicePreds ck s = s.map (predOfBeam ck) := by
  have ht : pyMax (s.map fun b => b.points.length) = n := by
    refine pyMax_const _ n (by simpa using hne) ?_
    intro x hx
    obtain ⟨b, hb, rfl⟩ := List.mem_map.mp hx
    exact h b hb
  unfold slicePreds
  rw [ht]
  refine List.map_eq_map_iff.mpr fun b hb => ?_
  have hb' : b.points.length = n := h b hb
  have hpad : padRow b.points n = b.points := by
    unfold padRow
    rw [if_pos (le_of_eq hb'.symm), ← hb', List.take_length]
  rw [hpad]
  rfl

/-- C2 (amended): when all beams in the input have the same point count —
so no beam is ever zero-padded, whatever the mini-batch boundaries — the
pipeline's predictions are identical for any two batch sizes ≥ 1 (in
particular for 1 and 32).  With unequal counts the padded zeros flow
through the unmasked max-pool and the predictions can differ (see the
counterexample). -/
theorem c2_batch_size_invariance (ck : PointNetReg c1 c2 c3 h1 h2) (beams : List Beam)
    (n : ℕ) (hc : ∀ b ∈ beams, b.points.length = n) (bs bs' : ℕ)
    (hbs : 1 ≤ bs) (hbs' : 1 ≤ bs') :
    runInference ck beams bs = runInference ck beams bs' := by
  have key : ∀ m, 1 ≤ m → runInference ck beams m = beams.map (predOfBeam ck) := by
    intro m hm
    unfold runInference
    have hcong : (chunk m beams).map (slicePreds ck)
        = (chunk m beams).map (fun s => s.map (predOfBeam ck)) :=
      List.map_eq_map_iff.mpr fun s hs =>
        slicePreds_const ck s n (chunk_mem_ne_nil m beams s hs)
          (fun b hb => hc b (chunk_mem_subset m hm beams s hs b hb))
    rw [hcong, ← List.map_flatten, chunk_flatten m hm]
  rw [key bs hbs, key bs' hbs']

/-- C2 (witness): the amended theorem at the all-zero default-architecture
model, two one-point beams and batch sizes 1 and 32. -/
theorem c2_batch_size_invariance_witness :
    (∀ b ∈ [Beam.mk 1 [(0, 0, 0)], Beam.mk 2 [(1, 0, 0)]], b.points.length = 1) ∧
    (1 ≤ 1) ∧ (1 ≤ 32) ∧
    runInference ckZero [Beam.mk 1 [(0, 0, 0)], Beam.mk 2 [(1, 0, 0)]] 1
      = runInference ckZero [Beam.mk 1 [(0, 0, 0)], Beam.mk 2 [(1, 0, 0)]] 32 :=
  ⟨by decide, by decide, by decide,
    c2_batch_size_invariance ckZero _ 1 (by decide) 1 32 (by decide) (by decide)⟩

end PredictAxis
